import Mathlib

/-!
Verification of the quiz static-site generator (`src/main.js`).

The program is embedded shallowly: JSON values are an inductive type, the
filesystem is a function from paths to read results, and every function of
`main.js` becomes a pure Lean function producing the list of `(path, content)`
pairs the program writes.  JavaScript-specific semantics that the source
relies on (`typeof x === "object"` is true for `null` and arrays, truthiness,
property access on `null` throwing a `TypeError`, `String.prototype.replace`
with a string pattern replacing only the first occurrence, template-literal
stringification) are modelled explicitly.
-/

/-- A parsed JSON value, as produced by `JSON.parse`.  Numbers are modelled as
integers: no claim depends on fractional numeric values, only on truthiness
and `typeof`.  Object fields are an association list; `JSON.parse` yields
unique keys, and lookup takes the first match. -/
inductive Json where
  | null
  | bool (b : Bool)
  | num (n : Int)
  | str (s : String)
  | arr (elems : List Json)
  | obj (fields : List (String × Json))

/-- JavaScript `typeof v === "object"`: true for objects, arrays and `null`. -/
def Json.typeofIsObject : Json → Bool
  | .null => true
  | .arr _ => true
  | .obj _ => true
  | _ => false

/-- JavaScript test `v === null`. -/
def Json.isNull : Json → Bool
  | .null => true
  | _ => false

/-- JavaScript truthiness of a parsed JSON value: `null`, `false`, `0` and
`""` are falsy; every array and object is truthy. -/
def Json.truthy : Json → Bool
  | .null => false
  | .bool b => b
  | .num n => n != 0
  | .str s => s != ""
  | .arr _ => true
  | .obj _ => true

/-- Property read `v.k` for the non-throwing cases: a named field of an object,
`none` (JavaScript `undefined`) for a missing field and for any non-object
(primitives box, arrays have no such named fields coming from JSON).
Reading a property of `null` throws instead; that case is `jsGetE` below. -/
def Json.getField : Json → String → Option Json
  | .obj fields, k => fields.lookup k
  | _, _ => none

/-- JavaScript `k in v` for the keys the source tests (`"questions"`,
`"title"`), which do not occur on `Object.prototype`: own-field membership,
false on arrays and primitives.  The source only evaluates `in` after a
`typeof`/null guard, so the throwing cases are unreachable. -/
def jsHasField (v : Json) (k : String) : Bool :=
  match v with
  | .obj fields => fields.any (fun p => p.1 == k)
  | _ => false

/-- Property read `v.k` including the throwing case: on `null` a `TypeError`
is raised (`Except.error`), otherwise the result of `Json.getField`. -/
def jsGetE (v : Json) (k : String) : Except Unit (Option Json) :=
  match v with
  | .null => .error ()
  | v => .ok (v.getField k)

mutual
/-- Template-literal stringification of a value (`` `${v}` ``): strings are
verbatim, arrays join their elements with `","` (with `null` rendering as the
empty string inside an array), objects render as `"[object Object]"`. -/
def jsToString : Json → String
  | .null => "null"
  | .bool b => cond b "true" "false"
  | .num n => toString n
  | .str s => s
  | .arr elems => jsArrToString elems
  | .obj _ => "[object Object]"

/-- Behaviour of `Array.prototype.toString`: elements joined with commas, `null` as empty. -/
def jsArrToString : List Json → String
  | [] => ""
  | [Json.null] => ""
  | [v] => jsToString v
  | Json.null :: rest => "," ++ jsArrToString rest
  | v :: rest => jsToString v ++ "," ++ jsArrToString rest
end

/-- Interpolation `` `${x}` `` of a possibly-`undefined` value. -/
def interp : Option Json → String
  | none => "undefined"
  | some v => jsToString v

/-- First-occurrence replacement on character lists, the semantics of
JavaScript `s.replace(pat, rep)` with a string pattern. -/
def replaceFirstL (pat rep : List Char) : List Char → List Char
  | [] => []
  | c :: rest =>
    if (c :: rest).take pat.length == pat then rep ++ (c :: rest).drop pat.length
    else c :: replaceFirstL pat rep rest

/-- JavaScript `s.replace(pat, rep)` with a plain-string pattern: replaces
only the FIRST occurrence of `pat` (not the last, not all). -/
def jsReplaceFirst (s pat rep : String) : String :=
  ⟨replaceFirstL pat.data rep.data s.data⟩

/-! ## Filesystem model and JSON loader -/

/-- What reading a path can yield: an I/O error (missing/unreadable file, the
`fs.readFile` / `fs.access` throw), text that fails `JSON.parse`, or text that
parses to a JSON value. -/
inductive ReadResult where
  | missing
  | invalid
  | ok (j : Json)

/-- The filesystem the run reads from: a map from path strings to read
results.  Immutable for the duration of a run. -/
abbrev FS := String → ReadResult

def INDEX_PATH : String := "./data/index.json"
def DATA_PATH : String := "./data/"

/-- Function `readJson(filePath)` of `main.js`: reads and parses a file; both the I/O
failure and the parse failure are caught and turned into the JavaScript value
`null` (which is `Json.null` — `JSON.parse "null"` yields the same value).
Never throws to its caller. -/
def readJson (fs : FS) (filePath : String) : Json :=
  match fs filePath with
  | .missing => .null
  | .invalid => .null
  | .ok j => j

/-! ## Index validator -/

/-- JavaScript `s.endsWith(t)`, modelled on the character list (the built-in Lean `String.endsWith` goes through byte positions that the kernel cannot
reduce): true when the last `t.length` characters of `s` are exactly `t`. -/
def jsEndsWith (s t : String) : Bool :=
  s.data.drop (s.data.length - t.data.length) == t.data

/-- The filter predicate of `parseIndexJson`:
`typeof entry === "object" && entry !== null && typeof entry.file === "string"
 && typeof entry.title === "string" && entry.file.endsWith(".json")`. -/
def validEntry (entry : Json) : Bool :=
  entry.typeofIsObject &&
  !entry.isNull &&
  (match entry.getField "file" with | some (.str _) => true | _ => false) &&
  (match entry.getField "title" with | some (.str _) => true | _ => false) &&
  (match entry.getField "file" with
   | some (.str s) => jsEndsWith s ".json"
   | _ => false)

/-- Function `parseIndexJson(data)` of `main.js`: `null` (here `none`) when the input
is not an array, otherwise the sub-list of entries passing `validEntry`. -/
def parseIndexJson (data : Json) : Option (List Json) :=
  match data with
  | .arr entries => some (entries.filter validEntry)
  | _ => none

/-! ## Existence/shape validator -/

/-- Function `isValidJsonFile(filePath)` of `main.js`: `fs.access` throwing (missing
file) is caught to `false`; otherwise the file is loaded via `readJson` and
the result must have `typeof === "object"`, be non-null, contain a
`"questions"` field, and that field must not be `null`.  A parse failure
surfaces as `readJson` returning `null`, caught by the `=== null` check.
Being an array is NOT rejected by the `typeof` check but an array has no
`"questions"` field; being a non-array `questions` is NOT rejected here. -/
def isValidJsonFile (fs : FS) (filePath : String) : Bool :=
  match fs (DATA_PATH ++ filePath) with
  | .missing => false
  | _ =>
    let fileContent := readJson fs (DATA_PATH ++ filePath)
    if !fileContent.typeofIsObject then false
    else if fileContent.isNull then false
    else if !jsHasField fileContent "questions" then false
    else match fileContent.getField "questions" with
      | some .null => false
      | _ => true

/-! ## Index page (`writeHtml`) -/

/-- Reads `entry.file` for an entry already validated by `parseIndexJson` (where the
field is guaranteed to be a string).  `writeHtml` and `generateAllHtml` are
only ever called on such entries, so the `""` default is dead code. -/
def entryFileStr (entry : Json) : String :=
  match entry.getField "file" with
  | some (.str s) => s
  | _ => ""

/-- One `<li>` of the index page:
`` `<li><a href="${item.file.replace(".json", ".html")}">${item.title}</a></li>\n` ``. -/
def linkLi (item : Json) : String :=
  "<li><a href=\"" ++ jsReplaceFirst (entryFileStr item) ".json" ".html" ++
  "\">" ++ interp (item.getField "title") ++ "</a></li>\n"

/-- The `html +=` accumulation loop of `writeHtml`: starts from the empty string and
appends one `<li>` per entry, left to right. -/
def indexLinksHtml (data : List Json) : String :=
  data.foldl (fun html item => html ++ linkLi item) ""

/-- The fixed part of the index page template before `${html}`. -/
def indexPageA : String :=
  "\n    <!DOCTYPE html>\n    <html lang=\"en\">\n        <head>\n            <meta charset=\"UTF-8\">\n            <meta name=\"viewport\" content=\"width=device-width, initial-scale=1.0\">\n            <meta http-equiv=\"X-UA-Compatible\" content=\"ie=edge\">\n            <link rel=\"stylesheet\" href=\"styles.css\">\n            <title>Verkefni 1</title>\n        </head>\n        <body>\n            <header>Verkefni 1 - Quiz Navigation</header>\n            <main>\n                <nav>\n                    <a href=\"index.html\">Home</a>\n                </nav>\n                <ul>\n                    "

/-- The fixed part of the index page template after `${html}`. -/
def indexPageB : String :=
  "\n                </ul>\n            </main>\n            <script src=\"script.js\"></script>\n        </body>\n    </html>\n    "

/-- The full `indexHtmlContent` template of `writeHtml`. -/
def indexHtmlContent (data : List Json) : String :=
  indexPageA ++ indexLinksHtml data ++ indexPageB

/-- Function `writeHtml(data)`: writes the index page to `dist/index.html`. -/
def writeHtml (data : List Json) : String × String :=
  ("dist/index.html", indexHtmlContent data)

/-! ## Quiz page renderer (`generateAllHtml`)

Rendering can throw a `TypeError` (reading a property of `null`), which the
per-entry `try` block of `generateAllHtml` catches; that is modelled with
`Except Unit`. -/

/-- The filter `questions.filter(q => Array.isArray(q.answers))`: evaluating
`q.answers` throws when `q` is `null`, which aborts the whole filter. -/
def filterValidQuestions : List Json → Except Unit (List Json)
  | [] => .ok []
  | q :: rest => do
    let aField ← jsGetE q "answers"
    let keep := match aField with | some (.arr _) => true | _ => false
    let tail ← filterValidQuestions rest
    pure (if keep then q :: tail else tail)

/-- One `<li>` of an answer:
the answer template literal of the source
with its exact whitespace, including the conditional correct-answer class.  Evaluating `answer.correct` on a
`null` element throws. -/
def renderAnswerLi : Json → Except Unit String
  | .null => .error ()
  | answer =>
    let correct := match answer.getField "correct" with
      | some v => v.truthy
      | none => false
    .ok ("\n                            <li" ++
      (if correct then " class=\"correct-answer\"" else "") ++
      ">\n                                " ++
      interp (answer.getField "answer") ++
      "\n                            </li>")

/-- Loop `q.answers.map(answer => ...)`: the list of answer `<li>`s, erroring as
soon as one answer is `null`. -/
def renderAnswers : List Json → Except Unit (List String)
  | [] => .ok []
  | a :: rest => do
    let s ← renderAnswerLi a
    let tail ← renderAnswers rest
    pure (s :: tail)

/-- One question card of the quiz page template.  `q.answers.map` on a value
that is not an array (impossible for a question surviving the filter) throws. -/
def renderCard (q : Json) : Except Unit String := do
  let qField ← jsGetE q "question"
  let aField ← jsGetE q "answers"
  match aField with
  | some (.arr answers) => do
    let lis ← renderAnswers answers
    pure ("\n                <div class=\"card\">\n                    <h2>" ++
      interp qField ++
      "</h2>\n                    <ul>\n                        " ++
      String.intercalate "\n" lis ++
      "\n                    </ul>\n                </div>\n            ")
  | _ => .error ()

/-- Loop `validQuestions.map(q => card)`: list of cards, propagating any throw. -/
def renderCardList : List Json → Except Unit (List String)
  | [] => .ok []
  | q :: rest => do
    let c ← renderCard q
    let tail ← renderCardList rest
    pure (c :: tail)

/-- Computation of `questionsHtml`: filter then map then `.join("\n")`, as an `Except`. -/
def renderQuestionsHtml (questions : List Json) : Except Unit String := do
  let validQuestions ← filterValidQuestions questions
  let cards ← renderCardList validQuestions
  pure (String.intercalate "\n" cards)

/-- The `htmlContent` template of `generateAllHtml` around `${title}` and
`${questionsHtml}`. -/
def quizPageHtml (title : Option Json) (questionsHtml : String) : String :=
  "\n            <!DOCTYPE html>\n            <html lang=\"en\">\n                <head>\n                    <meta charset=\"UTF-8\">\n                    <meta name=\"viewport\" content=\"width=device-width, initial-scale=1.0\">\n                    <link rel=\"stylesheet\" href=\"styles.css\">\n                    <title>" ++
  interp title ++
  "</title>\n                </head>\n                <body>\n                    <header><a href=\"./index.html\">" ++
  interp title ++
  "</a></header>\n                    <main>\n                        " ++
  questionsHtml ++
  "\n                    </main>\n                    <script src=\"script.js\"></script>\n                </body>\n            </html>"

/-- The body of the `generateAllHtml` loop for one entry: `none` when the entry
is skipped (either `continue` branch) or when rendering throws (caught by the
per-entry `try`), otherwise the `(outputFilePath, htmlContent)` write. -/
def processEntry (fs : FS) (entry : Json) : Option (String × String) :=
  let fileContent := readJson fs (DATA_PATH ++ entryFileStr entry)
  if !(fileContent.truthy && fileContent.typeofIsObject &&
       jsHasField fileContent "title" && jsHasField fileContent "questions")
  then none
  else
    -- `const { title, questions } = fileContent`; both fields are present.
    let title := fileContent.getField "title"
    let questions := (fileContent.getField "questions").getD .null
    if !(title.getD .null).truthy then none
    else match questions with
      | .arr qs =>
        match renderQuestionsHtml qs with
        | .error _ => none
        | .ok questionsHtml =>
          some ("dist/" ++ jsReplaceFirst (entryFileStr entry) ".json" ".html",
                quizPageHtml title questionsHtml)
      | _ => none

/-- Function `generateAllHtml(validFiles)`: the quiz-page writes, in entry order; a
skipped or throwing entry contributes nothing and processing continues. -/
def generateAllHtml (fs : FS) : List Json → List (String × String)
  | [] => []
  | entry :: rest =>
    match processEntry fs entry with
    | some w => w :: generateAllHtml fs rest
    | none => generateAllHtml fs rest

/-! ## Asset emitters -/

/-- The `cssContent` literal of `generateCssFile` (braces escaped as `\x7b`,
`\x7d` and apostrophes as `\x27`). -/
def cssContent : String :=
  "\n        body \x7b\n            font-family: \x27Roboto\x27, Arial, sans-serif;\n            background-color: #f9f9f9;\n            color: #333;\n            margin: 0;\n            padding: 20px;\n        \x7d\n\n        header \x7b\n            background-color: #4caf50;\n            padding: 20px;\n            color: white;\n            text-align: center;\n            font-size: 1.8em;\n        \x7d\n\n        main \x7b\n            max-width: 900px;\n            margin: 20px auto;\n            padding: 20px;\n        \x7d\n\n        ul \x7b\n            list-style: none;\n            padding: 0;\n        \x7d\n\n        .card \x7b\n            background-color: #ffffff;\n            box-shadow: 0 2px 8px rgba(0, 0, 0, 0.1);\n            padding: 20px;\n            border-radius: 8px;\n            transition: transform 0.3s ease;\n        \x7d\n\n        .card:hover \x7b\n            transform: translateY(-5px);\n        \x7d\n\n        .card h2 \x7b\n            color: #4caf50;\n        \x7d\n\n        .correct-answer \x7b\n            color: #2e7d32;\n            font-weight: bold;\n        \x7d\n        "

/-- Matches `generateCssFile()`: writes the stylesheet.  In node, path.join of
the DIST_PATH and the name normalises to `dist/styles.css`. -/
def generateCssFile : String × String :=
  ("dist/styles.css", cssContent)

/-- The `jsContent` literal of `generateJsFile`. -/
def jsContent : String :=
  "\n        document.addEventListener(\"DOMContentLoaded\", function () \x7b\n            const navBar = document.createElement(\"nav\");\n            navBar.innerHTML = \x27<a href=\"index.html\">Home</a>\x27;\n            document.body.prepend(navBar);\n        \x7d);\n        "

/-- Function `generateJsFile()`: writes the script. -/
def generateJsFile : String × String :=
  ("dist/script.js", jsContent)

/-! ## Orchestrator (`main`) -/

/-- The accumulation loop of `main`: keep the entries for which
`isValidJsonFile(entry.file)` holds, in order. -/
def filterValidFiles (fs : FS) : List Json → List Json
  | [] => []
  | entry :: rest =>
    if isValidJsonFile fs (entryFileStr entry)
    then entry :: filterValidFiles fs rest
    else filterValidFiles fs rest

/-- Function `main()`: the ordered list of `(path, content)` writes of one run.  The
CSS and JS assets are written before the index validity check; when
`parseIndexJson` returns `null` nothing else is written. -/
def mainRun (fs : FS) : List (String × String) :=
  let indexJson := readJson fs INDEX_PATH
  let parsedJson := parseIndexJson indexJson
  match parsedJson with
  | none => [generateCssFile, generateJsFile]
  | some entries =>
    let validFiles := filterValidFiles fs entries
    [generateCssFile, generateJsFile, writeHtml validFiles] ++
      generateAllHtml fs validFiles

/-! ## Claim-facing definitions

These restate parts of the behaviour of the program in the vocabulary of the
specification, for comparison with the definitions taken from the source. -/

/-- Stated from the words of the spec (§4.2): an index entry is kept when it is a
non-null object with a string `file` field ending in `".json"` and a string
`title` field. -/
def claimEntryOk (entry : Json) : Bool :=
  entry.typeofIsObject && !entry.isNull &&
  (match entry.getField "file" with
   | some (.str f) => jsEndsWith f ".json"
   | _ => false) &&
  (match entry.getField "title" with | some (.str _) => true | _ => false)

/-- Stated from the words of the spec (§4.5, §8 round-trip): the `".json"` SUFFIX
of a name replaced by `".html"` (meaningful when the name ends in ".json"). -/
def suffixJsonToHtml (s : String) : String :=
  String.mk (s.data.take (s.data.length - 5)) ++ ".html"

/-- The per-question keep condition of the renderer, `Array.isArray(q.answers)`,
as a total predicate (valid for non-`null` questions). -/
def keepQuestion (q : Json) : Bool :=
  match q.getField "answers" with
  | some (.arr _) => true
  | _ => false

/-- The `<li>` rendered for one answer, as a total function; agrees with
`renderAnswerLi` on every non-`null` answer. -/
def answerLiHtml (answer : Json) : String :=
  "\n                            <li" ++
  (if (match answer.getField "correct" with
       | some v => v.truthy
       | none => false)
   then " class=\"correct-answer\"" else "") ++
  ">\n                                " ++
  interp (answer.getField "answer") ++
  "\n                            </li>"

/-- The `answers` array of a question (valid for kept questions). -/
def answersOf (q : Json) : List Json :=
  match q.getField "answers" with
  | some (.arr xs) => xs
  | _ => []

/-- The card rendered for one kept question, as a total function; agrees with
`renderCard` whenever the question is kept and none of its answers is `null`. -/
def cardHtml (q : Json) : String :=
  "\n                <div class=\"card\">\n                    <h2>" ++
  interp (q.getField "question") ++
  "</h2>\n                    <ul>\n                        " ++
  String.intercalate "\n" ((answersOf q).map answerLiHtml) ++
  "\n                    </ul>\n                </div>\n            "

/-- The render-stage acceptance condition for an entry: its document loads to
a truthy object carrying `title` and `questions` fields, the title is truthy,
`questions` is an array, and rendering it completes without a thrown
`TypeError`.  This is exactly the condition under which `generateAllHtml`
writes a page for the entry. -/
def rendersOk (fs : FS) (entry : Json) : Bool :=
  let c := readJson fs (DATA_PATH ++ entryFileStr entry)
  c.truthy && c.typeofIsObject && jsHasField c "title" && jsHasField c "questions" &&
  ((c.getField "title").getD .null).truthy &&
  (match (c.getField "questions").getD .null with
   | .arr qs =>
     (match renderQuestionsHtml qs with | .ok _ => true | .error _ => false)
   | _ => false)

/-! ## Concrete example inputs -/

/-- A filesystem with no readable file at all. -/
def fsMissingAll : FS := fun _ => .missing

/-- A well-formed index entry pointing at `a.json`. -/
def exEntryA : Json := .obj [("file", .str "a.json"), ("title", .str "T")]

/-- An index manifest holding just `exEntryA`. -/
def exIndexA : Json := .arr [exEntryA]

/-- A quiz document whose `questions` field is a string — present and
non-null, but not an array. -/
def exDocOops : Json := .obj [("title", .str "T"), ("questions", .str "oops")]

/-- Filesystem for the two-stage-validation scenario: the manifest lists
`a.json`, whose `questions` field is `"oops"`. -/
def fsOops : FS := fun p =>
  if p = "./data/index.json" then .ok exIndexA
  else if p = "./data/a.json" then .ok exDocOops
  else .missing

/-- A question whose `answers` field is the string `"nope"` (not an array). -/
def exQuestionA : Json := .obj [("question", .str "A"), ("answers", .str "nope")]

/-- A question whose `answers` field is an array containing `null`. -/
def exQuestionB : Json := .obj [("question", .str "B"), ("answers", .arr [Json.null])]

/-- A well-formed question with two answers. -/
def exQuestionC : Json :=
  .obj [("question", .str "Cat or dog?"),
        ("answers", .arr [.obj [("answer", .str "Cat"), ("correct", .bool true)],
                          .obj [("answer", .str "Dog"), ("correct", .bool false)]])]

/-- A document in which a sibling of a dropped question has a `null` answer
element. -/
def exDocNullAnswer : Json :=
  .obj [("title", .str "T"), ("questions", .arr [exQuestionA, exQuestionB])]

/-- Filesystem where `a.json` is `exDocNullAnswer`. -/
def fsNullAnswer : FS := fun p =>
  if p = "./data/index.json" then .ok exIndexA
  else if p = "./data/a.json" then .ok exDocNullAnswer
  else .missing

/-- A fully well-formed document: dropped question `exQuestionA` next to the
renderable `exQuestionC`. -/
def exDocMixed : Json :=
  .obj [("title", .str "T"), ("questions", .arr [exQuestionA, exQuestionC])]

/-- Filesystem where `a.json` is `exDocMixed`. -/
def fsMixed : FS := fun p =>
  if p = "./data/index.json" then .ok exIndexA
  else if p = "./data/a.json" then .ok exDocMixed
  else .missing

/-- The §8 round-trip entry of the spec: `file: "geo.json"`. -/
def exEntryGeo : Json := .obj [("file", .str "geo.json"), ("title", .str "Geography")]

/-- A document for `geo.json` with an empty question list. -/
def exDocGeo : Json := .obj [("title", .str "Geography"), ("questions", .arr [])]

/-- Filesystem for the round-trip scenario. -/
def fsGeo : FS := fun p =>
  if p = "./data/index.json" then .ok (.arr [exEntryGeo])
  else if p = "./data/geo.json" then .ok exDocGeo
  else .missing

/-- An entry whose `file` contains ".json" twice: `a.json.json` ends in
".json" and so passes validation. -/
def exEntryJJ : Json := .obj [("file", .str "a.json.json"), ("title", .str "T")]

/-- Right-recursive view of the link accumulation. -/
def linkLis : List Json → String
  | [] => ""
  | item :: rest => linkLi item ++ linkLis rest

/-- A filesystem identical to `fsOops` except at the unrelated path "x". -/
def fsOther : FS := fun p =>
  if p = "x" then .invalid else fsOops p

/-! ## Basic string lemmas -/

theorem strAssoc (a b c : String) : (a ++ b) ++ c = a ++ (b ++ c) := by
  cases a; cases b; cases c
  exact congrArg String.mk (List.append_assoc _ _ _)

theorem strEmptyAppend (s : String) : "" ++ s = s := by
  cases s; rfl
theorem foldl_linkLi (l : List Json) (acc : String) :
    l.foldl (fun html item => html ++ linkLi item) acc = acc ++ linkLis l := by
  induction l generalizing acc with
  | nil => simp only [List.foldl, linkLis]; exact (String.append_empty acc).symm
  | cons x rest ih =>
    simp only [List.foldl, linkLis]
    rw [ih, strAssoc]

theorem indexLinksHtml_eq (data : List Json) : indexLinksHtml data = linkLis data := by
  rw [indexLinksHtml, foldl_linkLi, strEmptyAppend]

theorem linkLis_mem {e : Json} {l : List Json} (h : e ∈ l) :
    ∃ pre post, linkLis l = pre ++ (linkLi e ++ post) := by
  induction l with
  | nil => cases h
  | cons x rest ih =>
    rcases List.mem_cons.mp h with rfl | h
    · exact ⟨"", linkLis rest, (strEmptyAppend _).symm⟩
    · obtain ⟨pre, post, hp⟩ := ih h
      exact ⟨linkLi x ++ pre, post, by rw [linkLis, hp, strAssoc]⟩

theorem jsHasField_of_getField {v : Json} {k : String} {x : Json}
    (h : v.getField k = some x) : jsHasField v k = true := by
  cases v <;> try exact Option.noConfusion h
  case obj fields =>
    have hs : (List.lookup k fields).isSome := by
      rw [show Json.getField (Json.obj fields) k = List.lookup k fields from rfl] at h
      rw [h]; rfl
    rw [List.lookup_isSome_iff] at hs
    obtain ⟨p, hp, hk⟩ := hs
    simp only [jsHasField, List.any_eq_true]
    refine ⟨p, hp, ?_⟩
    have hkk : p.1 = k := (beq_iff_eq.mp hk).symm
    rw [hkk]
    exact beq_self_eq_true k

theorem jsGetE_ok {v : Json} (k : String) (hv : v ≠ Json.null) :
    jsGetE v k = .ok (v.getField k) := by
  cases v <;> first | exact absurd rfl hv | rfl

theorem getField_ne_null {v : Json} {k : String} {x : Json}
    (h : v.getField k = some x) : v ≠ Json.null := by
  intro hv; subst hv; exact Option.noConfusion h

theorem renderAnswerLi_ok {a : Json} (ha : a ≠ Json.null) :
    renderAnswerLi a = .ok (answerLiHtml a) := by
  cases a <;> first | exact absurd rfl ha | rfl

theorem renderAnswers_ok {xs : List Json} (h : ∀ a ∈ xs, a ≠ Json.null) :
    renderAnswers xs = .ok (xs.map answerLiHtml) := by
  induction xs with
  | nil => rfl
  | cons a rest ih =>
    have ha := h a (List.mem_cons_self a rest)
    rw [renderAnswers, renderAnswerLi_ok ha,
        ih (fun x hx => h x (List.mem_cons_of_mem a hx))]
    rfl

theorem renderAnswers_error {xs : List Json} (h : Json.null ∈ xs) :
    renderAnswers xs = .error () := by
  induction xs with
  | nil => cases h
  | cons a rest ih =>
    rcases List.mem_cons.mp h with ha | ha
    · rw [renderAnswers, ← ha]; rfl
    · by_cases hn : a = Json.null
      · rw [renderAnswers, hn]; rfl
      · rw [renderAnswers, renderAnswerLi_ok hn, ih ha]; rfl

theorem keepQuestion_answers {q : Json} (h : keepQuestion q = true) :
    q.getField "answers" = some (.arr (answersOf q)) := by
  unfold keepQuestion at h
  unfold answersOf
  cases hg : q.getField "answers" with
  | none => rw [hg] at h; exact Bool.noConfusion h
  | some v =>
    cases v with
    | arr xs => rfl
    | null => rw [hg] at h; exact Bool.noConfusion h
    | bool b => rw [hg] at h; exact Bool.noConfusion h
    | num n => rw [hg] at h; exact Bool.noConfusion h
    | str t => rw [hg] at h; exact Bool.noConfusion h
    | obj fields => rw [hg] at h; exact Bool.noConfusion h

theorem renderCard_ok {q : Json} (hq : q ≠ Json.null)
    (hk : keepQuestion q = true)
    (hnn : ∀ a ∈ answersOf q, a ≠ Json.null) :
    renderCard q = .ok (cardHtml q) := by
  rw [renderCard, jsGetE_ok _ hq, jsGetE_ok _ hq, keepQuestion_answers hk]
  show (renderAnswers (answersOf q)).bind _ = _
  rw [renderAnswers_ok hnn]
  rfl

theorem renderCard_error {q : Json} {xs : List Json}
    (ha : q.getField "answers" = some (.arr xs)) (hn : Json.null ∈ xs) :
    renderCard q = .error () := by
  have hq : q ≠ Json.null := getField_ne_null ha
  rw [renderCard, jsGetE_ok _ hq, jsGetE_ok _ hq, ha]
  show (renderAnswers xs).bind _ = _
  rw [renderAnswers_error hn]
  rfl

theorem renderCardList_ok {l : List Json}
    (h : ∀ q ∈ l, renderCard q = .ok (cardHtml q)) :
    renderCardList l = .ok (l.map cardHtml) := by
  induction l with
  | nil => rfl
  | cons q rest ih =>
    rw [renderCardList, h q (List.mem_cons_self q rest),
        ih (fun x hx => h x (List.mem_cons_of_mem q hx))]
    rfl

theorem renderCardList_error {l : List Json} {q : Json} (hm : q ∈ l)
    (he : renderCard q = .error ()) : renderCardList l = .error () := by
  induction l with
  | nil => cases hm
  | cons x rest ih =>
    rcases List.mem_cons.mp hm with hx | hx
    · rw [renderCardList, ← hx, he]; rfl
    · cases hc : renderCard x with
      | error e => rw [renderCardList, hc]; rfl
      | ok s => rw [renderCardList, hc, ih hx]; rfl

theorem filterValidQuestions_ok {qs : List Json}
    (h : ∀ q ∈ qs, q ≠ Json.null) :
    filterValidQuestions qs = .ok (qs.filter keepQuestion) := by
  induction qs with
  | nil => rfl
  | cons q rest ih =>
    have hq := h q (List.mem_cons_self q rest)
    rw [filterValidQuestions, jsGetE_ok _ hq,
        ih (fun x hx => h x (List.mem_cons_of_mem q hx))]
    show Except.ok (if keepQuestion q then q :: rest.filter keepQuestion
                    else rest.filter keepQuestion) = _
    rw [List.filter_cons]

theorem filterValidQuestions_cons {x : Json} (rest : List Json) (hx : x ≠ Json.null) :
    filterValidQuestions (x :: rest) =
      (filterValidQuestions rest).map
        (fun tail => if keepQuestion x then x :: tail else tail) := by
  rw [filterValidQuestions, jsGetE_ok _ hx]
  cases hr : filterValidQuestions rest <;> rfl

theorem filterValidQuestions_mem {qs kept : List Json} {q : Json}
    (hf : filterValidQuestions qs = .ok kept) (hm : q ∈ qs)
    (hk : keepQuestion q = true) : q ∈ kept := by
  induction qs generalizing kept with
  | nil => cases hm
  | cons x rest ih =>
    by_cases hx : x = Json.null
    · subst hx
      exact Except.noConfusion hf
    · rw [filterValidQuestions_cons rest hx] at hf
      cases hr : filterValidQuestions rest with
      | error e => rw [hr] at hf; exact Except.noConfusion hf
      | ok tail =>
        rw [hr] at hf
        simp only [Except.map] at hf
        injection hf with hf2
        rcases List.mem_cons.mp hm with hq | hmem
        · subst hq
          rw [← hf2, if_pos hk]
          exact List.mem_cons_self q tail
        · have hmemt := ih hr hmem
          rw [← hf2]
          by_cases hkx : keepQuestion x = true
          · rw [if_pos hkx]; exact List.mem_cons_of_mem x hmemt
          · rw [if_neg hkx]; exact hmemt

theorem renderQuestionsHtml_ok {qs : List Json}
    (hnn : ∀ q ∈ qs, q ≠ Json.null)
    (hann : ∀ q ∈ qs, keepQuestion q = true → ∀ a ∈ answersOf q, a ≠ Json.null) :
    renderQuestionsHtml qs =
      .ok (String.intercalate "\n" ((qs.filter keepQuestion).map cardHtml)) := by
  rw [renderQuestionsHtml, filterValidQuestions_ok hnn]
  show (renderCardList (qs.filter keepQuestion)).bind _ = _
  rw [renderCardList_ok]
  · rfl
  · intro q hq
    have hmem := List.mem_of_mem_filter hq
    have hk : keepQuestion q = true := List.of_mem_filter hq
    exact renderCard_ok (hnn q hmem) hk (hann q hmem hk)

theorem renderQuestionsHtml_error {qs xs : List Json} {q : Json}
    (hm : q ∈ qs) (ha : q.getField "answers" = some (.arr xs))
    (hn : Json.null ∈ xs) : renderQuestionsHtml qs = .error () := by
  rw [renderQuestionsHtml]
  cases hf : filterValidQuestions qs with
  | error e => cases e; rfl
  | ok kept =>
    have hk : keepQuestion q = true := by unfold keepQuestion; rw [ha]
    have hmem : q ∈ kept := filterValidQuestions_mem hf hm hk
    show (renderCardList kept).bind _ = _
    rw [renderCardList_error hmem (renderCard_error ha hn)]
    rfl

theorem getField_obj {v : Json} {k : String} {x : Json}
    (h : v.getField k = some x) : ∃ fields, v = Json.obj fields := by
  cases v <;> first | exact Option.noConfusion h | exact ⟨_, rfl⟩

theorem isValidJsonFile_true {fs : FS} {f : String} {c q : Json}
    (hfs : fs (DATA_PATH ++ f) = .ok c)
    (hq : c.getField "questions" = some q) (hqn : q ≠ Json.null) :
    isValidJsonFile fs f = true := by
  obtain ⟨fields, hc⟩ := getField_obj hq
  subst hc
  simp only [isValidJsonFile, readJson, hfs]
  rw [show (Json.obj fields).typeofIsObject = true from rfl,
      show (Json.obj fields).isNull = false from rfl,
      jsHasField_of_getField hq, hq]
  cases q <;> first | exact absurd rfl hqn | rfl

theorem processEntry_none_of_questions_not_arr {fs : FS} {entry : Json} {q : Json}
    (hq : (readJson fs (DATA_PATH ++ entryFileStr entry)).getField "questions" = some q)
    (hqa : ∀ xs, q ≠ Json.arr xs) :
    processEntry fs entry = none := by
  rw [processEntry]
  cases h1 : ((readJson fs (DATA_PATH ++ entryFileStr entry)).truthy &&
      (readJson fs (DATA_PATH ++ entryFileStr entry)).typeofIsObject &&
      jsHasField (readJson fs (DATA_PATH ++ entryFileStr entry)) "title" &&
      jsHasField (readJson fs (DATA_PATH ++ entryFileStr entry)) "questions") with
  | false => rfl
  | true =>
    rw [hq]
    show (if _ then _ else match q with | Json.arr _ => _ | _ => none) = none
    cases h2 : (((readJson fs (DATA_PATH ++ entryFileStr entry)).getField "title").getD Json.null).truthy with
    | false => rfl
    | true =>
      simp only [Bool.not_true, if_false]
      cases q <;> first | exact absurd rfl (hqa _) | rfl

theorem processEntry_some {fs : FS} {entry c : Json} {qs : List Json} {html : String}
    (hc : readJson fs (DATA_PATH ++ entryFileStr entry) = c)
    (h1 : c.truthy = true) (h2 : c.typeofIsObject = true)
    (h3 : jsHasField c "title" = true) (h4 : jsHasField c "questions" = true)
    (h5 : ((c.getField "title").getD Json.null).truthy = true)
    (h6 : c.getField "questions" = some (Json.arr qs))
    (h7 : renderQuestionsHtml qs = .ok html) :
    processEntry fs entry =
      some ("dist/" ++ jsReplaceFirst (entryFileStr entry) ".json" ".html",
            quizPageHtml (c.getField "title") html) := by
  simp only [processEntry, hc, h1, h2, h3, h4, h5, h6, h7, Option.getD_some,
    Bool.and_self, Bool.true_and, Bool.and_true, Bool.not_true]
  rfl

theorem processEntry_none_of_render_error {fs : FS} {entry c : Json} {qs : List Json}
    (hc : readJson fs (DATA_PATH ++ entryFileStr entry) = c)
    (h6 : c.getField "questions" = some (Json.arr qs))
    (h7 : renderQuestionsHtml qs = .error ()) :
    processEntry fs entry = none := by
  simp only [processEntry, hc, h6, h7, Option.getD_some]
  cases h1 : (c.truthy && c.typeofIsObject && jsHasField c "title" && jsHasField c "questions") with
  | false => rfl
  | true =>
    cases h5 : ((c.getField "title").getD Json.null).truthy with
    | false => rfl
    | true => rfl

theorem processEntry_isSome_eq (fs : FS) (entry : Json) :
    (processEntry fs entry).isSome = rendersOk fs entry := by
  simp only [processEntry, rendersOk]
  cases h1 : ((readJson fs (DATA_PATH ++ entryFileStr entry)).truthy &&
      (readJson fs (DATA_PATH ++ entryFileStr entry)).typeofIsObject &&
      jsHasField (readJson fs (DATA_PATH ++ entryFileStr entry)) "title" &&
      jsHasField (readJson fs (DATA_PATH ++ entryFileStr entry)) "questions") with
  | false => rfl
  | true =>
    cases h5 : (((readJson fs (DATA_PATH ++ entryFileStr entry)).getField "title").getD Json.null).truthy with
    | false => simp
    | true =>
      simp only [Bool.not_true, Bool.true_and]
      cases hq : ((readJson fs (DATA_PATH ++ entryFileStr entry)).getField "questions").getD Json.null with
      | arr qs =>
        show (match renderQuestionsHtml qs with
              | Except.error _ => (none : Option (String × String))
              | Except.ok questionsHtml =>
                some ("dist/" ++ jsReplaceFirst (entryFileStr entry) ".json" ".html",
                      quizPageHtml ((readJson fs (DATA_PATH ++ entryFileStr entry)).getField "title")
                        questionsHtml)).isSome =
          (match renderQuestionsHtml qs with
           | Except.ok _ => true
           | Except.error _ => false)
        cases hr : renderQuestionsHtml qs with
        | error e => rfl
        | ok html => rfl
      | null => rfl
      | bool b => rfl
      | num n => rfl
      | str s => rfl
      | obj fields => rfl

theorem generateAllHtml_length (fs : FS) (l : List Json) :
    (generateAllHtml fs l).length = (l.filter (fun e => rendersOk fs e)).length := by
  induction l with
  | nil => rfl
  | cons e rest ih =>
    rw [generateAllHtml, List.filter_cons]
    cases hp : processEntry fs e with
    | some w =>
      have : rendersOk fs e = true := by
        rw [← processEntry_isSome_eq, hp]; rfl
      rw [this, if_pos rfl]
      simp [ih]
    | none =>
      have : rendersOk fs e = false := by
        rw [← processEntry_isSome_eq, hp]; rfl
      rw [this]
      simp [ih]

theorem generateAllHtml_cons_none {fs : FS} {e : Json} (rest : List Json)
    (h : processEntry fs e = none) :
    generateAllHtml fs (e :: rest) = generateAllHtml fs rest := by
  rw [generateAllHtml, h]

theorem isValidJsonFile_congr {fs₁ fs₂ : FS} (f : String)
    (h : fs₁ (DATA_PATH ++ f) = fs₂ (DATA_PATH ++ f)) :
    isValidJsonFile fs₁ f = isValidJsonFile fs₂ f := by
  simp only [isValidJsonFile, readJson, h]

theorem processEntry_congr {fs₁ fs₂ : FS} (e : Json)
    (h : fs₁ (DATA_PATH ++ entryFileStr e) = fs₂ (DATA_PATH ++ entryFileStr e)) :
    processEntry fs₁ e = processEntry fs₂ e := by
  simp only [processEntry, readJson, h]

theorem filterValidFiles_congr {fs₁ fs₂ : FS} (l : List Json)
    (h : ∀ f, fs₁ (DATA_PATH ++ f) = fs₂ (DATA_PATH ++ f)) :
    filterValidFiles fs₁ l = filterValidFiles fs₂ l := by
  induction l with
  | nil => rfl
  | cons e rest ih =>
    rw [filterValidFiles, filterValidFiles, isValidJsonFile_congr _ (h (entryFileStr e)), ih]

theorem generateAllHtml_congr {fs₁ fs₂ : FS} (l : List Json)
    (h : ∀ f, fs₁ (DATA_PATH ++ f) = fs₂ (DATA_PATH ++ f)) :
    generateAllHtml fs₁ l = generateAllHtml fs₂ l := by
  induction l with
  | nil => rfl
  | cons e rest ih =>
    rw [generateAllHtml, generateAllHtml, processEntry_congr _ (h (entryFileStr e)), ih]

theorem mainRun_of_parse_none {fs : FS}
    (h : parseIndexJson (readJson fs INDEX_PATH) = none) :
    mainRun fs = [generateCssFile, generateJsFile] := by
  rw [mainRun, h]

theorem mainRun_of_parse_some {fs : FS} {entries : List Json}
    (h : parseIndexJson (readJson fs INDEX_PATH) = some entries) :
    mainRun fs =
      [generateCssFile, generateJsFile, writeHtml (filterValidFiles fs entries)] ++
        generateAllHtml fs (filterValidFiles fs entries) := by
  rw [mainRun, h]

theorem validEntry_eq_claimEntryOk (e : Json) : validEntry e = claimEntryOk e := by
  cases e <;> try rfl
  case obj fields =>
    simp only [validEntry, claimEntryOk, Json.typeofIsObject, Json.isNull,
      Bool.not_false, Bool.true_and, Bool.and_true]
    cases hf : (Json.obj fields).getField "file" with
    | none => rfl
    | some fv =>
      cases fv with
      | str s =>
        cases ht : (Json.obj fields).getField "title" with
        | none =>
          cases he : jsEndsWith s ".json" <;> simp
        | some tv =>
          cases tv <;> cases he : jsEndsWith s ".json" <;> simp
      | null => rfl
      | bool b => rfl
      | num n => rfl
      | arr l => rfl
      | obj l => rfl

/-- C4: `parseIndexJson` returns `null` exactly on non-array input, and on an
array returns exactly the entries that are non-null objects with a string
`file` ending in ".json" and a string `title`, in input order. -/
theorem spec_c4_parseIndexJson (d : Json) :
    (parseIndexJson d = none ↔ ∀ entries, d ≠ Json.arr entries) ∧
    (∀ entries, d = Json.arr entries →
      parseIndexJson d = some (entries.filter claimEntryOk) ∧
      (entries.filter claimEntryOk).Sublist entries) := by
  constructor
  · constructor
    · intro h entries hd
      subst hd
      rw [parseIndexJson] at h
      exact Option.noConfusion h
    · intro h
      cases d <;> first | rfl | exact absurd rfl (h _)
  · intro entries hd
    subst hd
    constructor
    · rw [parseIndexJson, List.filter_congr (fun e _ => validEntry_eq_claimEntryOk e)]
    · exact List.filter_sublist entries

theorem spec_c4_witness :
    parseIndexJson (Json.arr [exEntryA, Json.null]) =
      some ([exEntryA, Json.null].filter claimEntryOk) ∧
    ([exEntryA, Json.null].filter claimEntryOk).Sublist [exEntryA, Json.null] :=
  (spec_c4_parseIndexJson (Json.arr [exEntryA, Json.null])).2 [exEntryA, Json.null] rfl

/-- C7: `readJson` never raises: for every filesystem and path it returns the
parsed value on success and the `null` sentinel on I/O or parse failure. -/
theorem spec_c7_readJson (fs : FS) (p : String) :
    (fs p = .missing → readJson fs p = Json.null) ∧
    (fs p = .invalid → readJson fs p = Json.null) ∧
    (∀ j, fs p = .ok j → readJson fs p = j) ∧
    (readJson fs p = Json.null ∨ ∃ j, fs p = .ok j ∧ readJson fs p = j) := by
  refine ⟨fun h => by rw [readJson, h], fun h => by rw [readJson, h],
    fun j h => by rw [readJson, h], ?_⟩
  cases h : fs p with
  | missing => exact Or.inl (by rw [readJson, h])
  | invalid => exact Or.inl (by rw [readJson, h])
  | ok j => exact Or.inr ⟨j, rfl, by rw [readJson, h]⟩

theorem spec_c7_witness :
    readJson fsMissingAll "./data/a.json" = Json.null :=
  (spec_c7_readJson fsMissingAll "./data/a.json").1 rfl

/-- C6: the CSS and JS assets are the first two writes of every run, and when
the index manifest does not parse to an array the run writes exactly the two
assets — no index page and no quiz pages. -/
theorem spec_c6_assets (fs : FS) :
    (mainRun fs).take 2 = [generateCssFile, generateJsFile] ∧
    (parseIndexJson (readJson fs INDEX_PATH) = none →
      mainRun fs = [generateCssFile, generateJsFile]) := by
  constructor
  · rw [mainRun]
    cases parseIndexJson (readJson fs INDEX_PATH) <;> rfl
  · exact mainRun_of_parse_none

theorem spec_c6_witness :
    mainRun fsMissingAll = [generateCssFile, generateJsFile] :=
  (spec_c6_assets fsMissingAll).2 rfl

/-- C8: the run is a function of the index file and the data directory alone:
filesystems agreeing there produce byte-identical write lists; in particular,
re-running on unchanged inputs reproduces the outputs exactly. -/
theorem spec_c8_deterministic (fs₁ fs₂ : FS)
    (hidx : fs₁ INDEX_PATH = fs₂ INDEX_PATH)
    (hdata : ∀ f, fs₁ (DATA_PATH ++ f) = fs₂ (DATA_PATH ++ f)) :
    mainRun fs₁ = mainRun fs₂ := by
  have hread : readJson fs₁ INDEX_PATH = readJson fs₂ INDEX_PATH := by
    rw [readJson, readJson, hidx]
  cases hp : parseIndexJson (readJson fs₂ INDEX_PATH) with
  | none =>
    rw [mainRun_of_parse_none (by rw [hread]; exact hp), mainRun_of_parse_none hp]
  | some entries =>
    rw [mainRun_of_parse_some (by rw [hread]; exact hp), mainRun_of_parse_some hp,
        filterValidFiles_congr entries hdata, generateAllHtml_congr _ hdata]

theorem spec_c8_witness : mainRun fsOther = mainRun fsOops :=
  spec_c8_deterministic fsOther fsOops rfl (fun f => by
    show (if ("./data/" ++ f) = "x" then ReadResult.invalid
          else fsOops ("./data/" ++ f)) = fsOops ("./data/" ++ f)
    rw [if_neg]
    intro h
    have hl := congrArg String.length h
    rw [String.length_append] at hl
    rw [show ("./data/" : String).length = 7 from rfl,
        show ("x" : String).length = 1 from rfl] at hl
    omega)

/-- C1 as stated is false: with manifest `[{file: "a.json", title: "T"}]` and
`a.json` = `{title: "T", questions: "oops"}`, the entry passes both
validators (count 1) but zero quiz pages are written. -/
theorem spec_c1_counterexample :
    parseIndexJson (readJson fsOops INDEX_PATH) = some [exEntryA] ∧
    isValidJsonFile fsOops "a.json" = true ∧
    filterValidFiles fsOops [exEntryA] = [exEntryA] ∧
    generateAllHtml fsOops (filterValidFiles fsOops [exEntryA]) = [] ∧
    (generateAllHtml fsOops (filterValidFiles fsOops [exEntryA])).length ≠
      (filterValidFiles fsOops [exEntryA]).length := by
  refine ⟨rfl, rfl, rfl, rfl, ?_⟩
  intro h
  rw [show (generateAllHtml fsOops (filterValidFiles fsOops [exEntryA])).length = 0 from rfl,
      show (filterValidFiles fsOops [exEntryA]).length = 1 from rfl] at h
  exact absurd h (by decide)

/-- C1 amended: the number of quiz pages written equals the number of entries
passing both validators AND the render-stage checks (`rendersOk`); it never
exceeds the number passing both validators. -/
theorem spec_c1_amended (fs : FS) (entries : List Json)
    (hp : parseIndexJson (readJson fs INDEX_PATH) = some entries) :
    mainRun fs =
      [generateCssFile, generateJsFile, writeHtml (filterValidFiles fs entries)] ++
        generateAllHtml fs (filterValidFiles fs entries) ∧
    (generateAllHtml fs (filterValidFiles fs entries)).length =
      ((filterValidFiles fs entries).filter (fun e => rendersOk fs e)).length ∧
    (generateAllHtml fs (filterValidFiles fs entries)).length ≤
      (filterValidFiles fs entries).length := by
  refine ⟨mainRun_of_parse_some hp, generateAllHtml_length fs _, ?_⟩
  rw [generateAllHtml_length fs _]
  exact List.length_filter_le _ _

theorem spec_c1_witness :
    mainRun fsMixed =
      [generateCssFile, generateJsFile, writeHtml (filterValidFiles fsMixed [exEntryA])] ++
        generateAllHtml fsMixed (filterValidFiles fsMixed [exEntryA]) ∧
    (generateAllHtml fsMixed (filterValidFiles fsMixed [exEntryA])).length =
      ((filterValidFiles fsMixed [exEntryA]).filter (fun e => rendersOk fsMixed e)).length ∧
    (generateAllHtml fsMixed (filterValidFiles fsMixed [exEntryA])).length ≤
      (filterValidFiles fsMixed [exEntryA]).length :=
  spec_c1_amended fsMixed [exEntryA] rfl

/-- C2: a quiz document whose `questions` field is present and non-null but
not an array passes `isValidJsonFile`, yet `generateAllHtml` skips it and
writes no page for it. -/
theorem spec_c2_two_stage {fs : FS} {entry c q : Json}
    (hfs : fs (DATA_PATH ++ entryFileStr entry) = .ok c)
    (hq : c.getField "questions" = some q)
    (hqn : q ≠ Json.null) (hqa : ∀ xs, q ≠ Json.arr xs) :
    isValidJsonFile fs (entryFileStr entry) = true ∧
    processEntry fs entry = none := by
  constructor
  · exact isValidJsonFile_true hfs hq hqn
  · refine processEntry_none_of_questions_not_arr ?_ hqa
    rw [readJson, hfs]
    exact hq

theorem spec_c2_witness :
    isValidJsonFile fsOops (entryFileStr exEntryA) = true ∧
    processEntry fsOops exEntryA = none :=
  spec_c2_two_stage (c := exDocOops) (q := Json.str "oops") rfl rfl
    (by simp) (by intro xs h; exact Json.noConfusion h)

theorem processEntry_path {fs : FS} {entry : Json} {p c : String}
    (h : processEntry fs entry = some (p, c)) :
    p = "dist/" ++ jsReplaceFirst (entryFileStr entry) ".json" ".html" := by
  rw [processEntry] at h
  split at h
  · exact Option.noConfusion h
  · dsimp only at h
    split at h
    · exact Option.noConfusion h
    · split at h
      · split at h
        · exact Option.noConfusion h
        · injection h with h1
          exact (congrArg Prod.fst h1).symm
      · exact Option.noConfusion h

/-- C3 as stated is false: the entry `{file: "a.json.json", title: "T"}` is
valid (its `file` ends in ".json"), but the generated href replaces the FIRST
occurrence of ".json", yielding "a.html.json", not the suffix replacement
"a.json.html". -/
theorem spec_c3_counterexample :
    validEntry exEntryJJ = true ∧
    linkLi exEntryJJ = "<li><a href=\"a.html.json\">T</a></li>\n" ∧
    suffixJsonToHtml "a.json.json" = "a.json.html" ∧
    jsReplaceFirst "a.json.json" ".json" ".html" ≠ suffixJsonToHtml "a.json.json" := by
  refine ⟨rfl, rfl, rfl, ?_⟩
  decide

/-- C3 amended: for every entry valid for the run, the index page contains a
link whose href is the `file` of the entry with the FIRST occurrence of ".json"
replaced by ".html" (equal to the suffix replacement whenever ".json" first
occurs at the suffix, e.g. `geo.json` → `geo.html`) and whose text is the
`title` of the entry; any quiz page written for the entry goes to `dist/` plus the
same replaced name. -/
theorem spec_c3_amended (fs : FS) (entries : List Json) (entry : Json)
    (hp : parseIndexJson (readJson fs INDEX_PATH) = some entries)
    (hm : entry ∈ filterValidFiles fs entries) :
    writeHtml (filterValidFiles fs entries) ∈ mainRun fs ∧
    (∃ pre post,
      indexHtmlContent (filterValidFiles fs entries) =
        pre ++ (("<li><a href=\"" ++ jsReplaceFirst (entryFileStr entry) ".json" ".html" ++
          "\">" ++ interp (entry.getField "title") ++ "</a></li>\n") ++ post)) ∧
    (∀ p c, processEntry fs entry = some (p, c) →
      p = "dist/" ++ jsReplaceFirst (entryFileStr entry) ".json" ".html") := by
  refine ⟨?_, ?_, fun p c hpc => processEntry_path hpc⟩
  · rw [mainRun_of_parse_some hp]
    simp
  · obtain ⟨pre, post, hd⟩ := linkLis_mem hm
    refine ⟨indexPageA ++ pre, post ++ indexPageB, ?_⟩
    rw [indexHtmlContent, indexLinksHtml_eq, hd, linkLi]
    simp only [strAssoc]

theorem spec_c3_witness :
    writeHtml (filterValidFiles fsGeo [exEntryGeo]) ∈ mainRun fsGeo ∧
    (∃ pre post,
      indexHtmlContent (filterValidFiles fsGeo [exEntryGeo]) =
        pre ++ (("<li><a href=\"" ++ jsReplaceFirst (entryFileStr exEntryGeo) ".json" ".html" ++
          "\">" ++ interp (exEntryGeo.getField "title") ++ "</a></li>\n") ++ post)) ∧
    (∀ p c, processEntry fsGeo exEntryGeo = some (p, c) →
      p = "dist/" ++ jsReplaceFirst (entryFileStr exEntryGeo) ".json" ".html") :=
  spec_c3_amended fsGeo [exEntryGeo] exEntryGeo rfl (List.mem_cons_self exEntryGeo [])

/-- C5 as stated is false: in a document whose questions are
`[{answers: "nope"}, {answers: [null]}]` the first question has a non-array
`answers` and the second (sibling) has an array `answers`, yet NO page is
written at all — the sibling is not rendered, because rendering its `null`
answer throws and the per-entry catch discards the whole document. -/
theorem spec_c5_counterexample :
    readJson fsNullAnswer (DATA_PATH ++ entryFileStr exEntryA) = exDocNullAnswer ∧
    exDocNullAnswer.getField "questions" = some (.arr [exQuestionA, exQuestionB]) ∧
    ((exDocNullAnswer.getField "title").getD Json.null).truthy = true ∧
    keepQuestion exQuestionA = false ∧
    keepQuestion exQuestionB = true ∧
    processEntry fsNullAnswer exEntryA = none ∧
    generateAllHtml fsNullAnswer [exEntryA] = [] :=
  ⟨rfl, rfl, rfl, rfl, rfl, rfl, rfl⟩

/-- C5 amended: for a document the renderer accepts, provided no question is
`null` and the `answers` array of no kept question contains `null` (so rendering
completes), every question whose `answers` is not an array is omitted and
every question whose `answers` is an array is rendered as a card, in order. -/
theorem spec_c5_amended {fs : FS} {entry c : Json} {qs : List Json}
    (hc : readJson fs (DATA_PATH ++ entryFileStr entry) = c)
    (h1 : c.truthy = true) (h2 : c.typeofIsObject = true)
    (h3 : jsHasField c "title" = true) (h4 : jsHasField c "questions" = true)
    (h5 : ((c.getField "title").getD Json.null).truthy = true)
    (h6 : c.getField "questions" = some (Json.arr qs))
    (hnn : ∀ q ∈ qs, q ≠ Json.null)
    (hann : ∀ q ∈ qs, keepQuestion q = true → ∀ a ∈ answersOf q, a ≠ Json.null) :
    processEntry fs entry =
      some ("dist/" ++ jsReplaceFirst (entryFileStr entry) ".json" ".html",
        quizPageHtml (c.getField "title")
          (String.intercalate "\n" ((qs.filter keepQuestion).map cardHtml))) :=
  processEntry_some hc h1 h2 h3 h4 h5 h6 (renderQuestionsHtml_ok hnn hann)

set_option maxRecDepth 8000 in
theorem spec_c5_witness :
    processEntry fsMixed exEntryA =
      some ("dist/" ++ jsReplaceFirst (entryFileStr exEntryA) ".json" ".html",
        quizPageHtml (exDocMixed.getField "title")
          (String.intercalate "\n"
            (([exQuestionA, exQuestionC].filter keepQuestion).map cardHtml))) :=
  spec_c5_amended rfl rfl rfl rfl rfl rfl rfl
    (by
      intro q hq
      rcases List.mem_cons.mp hq with h | h
      · subst h; simp [exQuestionA]
      · rcases List.mem_cons.mp h with h2 | h2
        · subst h2; simp [exQuestionC]
        · cases h2)
    (by
      intro q hq hk a ha
      rcases List.mem_cons.mp hq with h | h
      · subst h; exact Bool.noConfusion hk
      · rcases List.mem_cons.mp h with h2 | h2
        · subst h2
          rcases List.mem_cons.mp ha with h3 | h3
          · subst h3; simp
          · rcases List.mem_cons.mp h3 with h4 | h4
            · subst h4; simp
            · cases h4
        · cases h2)

/-- C9: every entry that passed both validators gets a link in the index page
even if the renderer later skips it, so the index can contain dangling links;
concretely, `fsOops` produces an index page linking `a.html` while no quiz
page at all is written. -/
theorem spec_c9_dangling :
    (∀ (fs : FS) (entries : List Json) (entry : Json),
      parseIndexJson (readJson fs INDEX_PATH) = some entries →
      entry ∈ filterValidFiles fs entries →
      writeHtml (filterValidFiles fs entries) ∈ mainRun fs ∧
      ∃ pre post,
        indexHtmlContent (filterValidFiles fs entries) = pre ++ (linkLi entry ++ post)) ∧
    (filterValidFiles fsOops [exEntryA] = [exEntryA] ∧
     mainRun fsOops = [generateCssFile, generateJsFile, writeHtml [exEntryA]] ∧
     linkLi exEntryA = "<li><a href=\"a.html\">T</a></li>\n" ∧
     generateAllHtml fsOops [exEntryA] = []) := by
  constructor
  · intro fs entries entry hp hm
    constructor
    · rw [mainRun_of_parse_some hp]
      simp
    · obtain ⟨pre, post, hd⟩ := linkLis_mem hm
      refine ⟨indexPageA ++ pre, post ++ indexPageB, ?_⟩
      rw [indexHtmlContent, indexLinksHtml_eq, hd]
      simp only [strAssoc]
  · exact ⟨rfl, rfl, rfl, rfl⟩

theorem spec_c9_witness :
    writeHtml (filterValidFiles fsOops [exEntryA]) ∈ mainRun fsOops ∧
    ∃ pre post,
      indexHtmlContent (filterValidFiles fsOops [exEntryA]) =
        pre ++ (linkLi exEntryA ++ post) :=
  spec_c9_dangling.1 fsOops [exEntryA] exEntryA rfl (List.mem_cons_self exEntryA [])

/-- C10: if the `answers` array of a kept question contains `null`, rendering the
document throws inside the per-entry try block: no page is written for the
whole document, and the remaining entries are processed unaffected. -/
theorem spec_c10_null_answer {fs : FS} {entry c q : Json} {qs xs : List Json}
    (hc : readJson fs (DATA_PATH ++ entryFileStr entry) = c)
    (h6 : c.getField "questions" = some (Json.arr qs))
    (hm : q ∈ qs) (ha : q.getField "answers" = some (Json.arr xs))
    (hn : Json.null ∈ xs) :
    processEntry fs entry = none ∧
    ∀ rest, generateAllHtml fs (entry :: rest) = generateAllHtml fs rest := by
  have hnone : processEntry fs entry = none :=
    processEntry_none_of_render_error hc h6 (renderQuestionsHtml_error hm ha hn)
  exact ⟨hnone, fun rest => generateAllHtml_cons_none rest hnone⟩

set_option maxRecDepth 8000 in
theorem spec_c10_witness :
    processEntry fsNullAnswer exEntryA = none ∧
    generateAllHtml fsNullAnswer (exEntryA :: [exEntryGeo]) =
      generateAllHtml fsNullAnswer [exEntryGeo] :=
  ⟨(@spec_c10_null_answer fsNullAnswer exEntryA exDocNullAnswer exQuestionB
      [exQuestionA, exQuestionB] [Json.null] rfl rfl (by simp) rfl (by simp)).1,
   (@spec_c10_null_answer fsNullAnswer exEntryA exDocNullAnswer exQuestionB
      [exQuestionA, exQuestionB] [Json.null] rfl rfl (by simp) rfl (by simp)).2
     [exEntryGeo]⟩
